import Mathlib

/-!
Verification development for the HTTP execution/retry layer of the
terraform-provider-power-platform repository.

The embedding follows the Go sources: `Client.Execute` (internal/api/client.go,
as quoted in .github/prompts/issues_found/critical/unsafe_retry_mechanism.md),
`CreateApplicationUser` (internal/powerplatform/services/application_user/
api_application_user.go), `CreateWebsite` (internal/services/powerpages, in
internal/services/powerapps/datasource_environment_powerapps.go),
`ExecuteApiRequest` (internal/services/rest/api_rest.go, quoted in
.github/prompts/issues_found/medium/insufficient_uri_validation.md) and
`BuildEnvironmentHostUri` (internal/helpers/uri.go, quoted in the same file).
Parts of `internal/api` that are not present in the sources are modelled from
the specification and are marked as such in their doc comments.

HTTP calls are modelled by an oracle `resp : Nat -> HttpResponse` giving the
response to the i-th attempt, and random draws by an oracle
`rnd : Nat -> Nat`.  Loops take explicit fuel; a result of `none` (or a
dedicated constructor) means the loop is still running after that many
iterations.
-/

/-- An HTTP response as seen by the retry loop: status code, raw body
(`BodyAsBytes`, modelled as a string) and the optional `Retry-After` header
value in seconds. -/
structure HttpResponse where
  statusCode : Nat
  body : String
  retryAfterHeader : Option Nat := none
deriving DecidableEq, Repr

/-- The `retryableStatusCodes` list of internal/api/client.go.  The source
excerpt shows 401 (with the comment that the token may have expired) followed
by an elision.  Modelled from the spec: the remaining members 429, 500, 502,
503, 504 are taken from spec section 4.4 ("Retryable status codes: 401 ...,
429, 500, 502, 503, 504"). -/
def retryableStatusCodes : List Nat := [401, 429, 500, 502, 503, 504]

/-- `DefaultRetryAfter` from internal/api/client.go:
`time.Duration((rand.Intn(10) + 10)) * time.Second`.  The raw draw of the
`math/rand` generator is the argument `rnd`; `rand.Intn(10)` is its value
reduced modulo 10.  The result is in seconds. -/
def DefaultRetryAfter (rnd : Nat) : Nat := rnd % 10 + 10

/-- The delay prescribed by spec section 4.4.  Modelled from the spec:
`delay = min(maxDelay, base * 2^attempt) * (1 + jitterFraction)`, here at
jitter fraction 0 (the jitter only enlarges the delay).  This definition
follows the spec's words and exists to be compared with `DefaultRetryAfter`,
which is what the code computes. -/
def specRetryDelay (base maxDelay attempt : Nat) : Nat :=
  min maxDelay (base * 2 ^ attempt)

/-- `retryAfter(ctx, resp)` used by the `Execute` loop.  Its body is not in
the sources.  Modelled from the spec: "if response carries a `Retry-After`
header, honor it (clamped to a maximum, e.g. 120s)"; otherwise the default
jittered interval `DefaultRetryAfter`. -/
def retryAfter (r : HttpResponse) (rnd : Nat) : Nat :=
  match r.retryAfterHeader with
  | some v => min v 120
  | none => DefaultRetryAfter rnd

/-- Observable steps of one `Execute` run.  `forceRefresh` is the forced
token refresh that spec section 4.4 requires before a 401 retry; the source
retries 401 as an ordinary transient status (spec section 9 and the
unsafe_retry_mechanism issue report: "Retries on 401 Unauthorized without
token refresh"), so the embedding of the source never emits it. -/
inductive ExecAction
  | acquireToken
  | httpCall (status : Nat)
  | sleep (seconds : Nat)
  | forceRefresh
deriving DecidableEq, Repr

/-- Result of `Client.Execute`: either the response (status in the acceptable
set) or `NewUnexpectedHttpStatusCodeError(acceptableStatusCodes, status,
body)`. -/
inductive ExecuteResult
  | success (resp : HttpResponse)
  | unexpectedStatusError (acceptable : List Nat) (status : Nat) (body : String)
deriving DecidableEq, Repr

/-- One run of the `Execute` loop: `result = none` means the loop was still
running when the fuel ran out; `attempts` counts the HTTP calls performed;
`actions` is the ordered trace of observable steps. -/
structure ExecRun where
  result : Option ExecuteResult
  attempts : Nat
  actions : List ExecAction
deriving DecidableEq, Repr

/-- The retry loop of `Client.Execute` (internal/api/client.go).  Per
iteration: acquire a token, send the request; if the status is in the
caller-supplied acceptable set return success (spec section 4.3: "if the
status code is in the caller-supplied acceptable set, returns success" -
this branch is elided in the source excerpt, and is required by the visible
caller `CreateWebsite`); otherwise if it is not retryable return the response
together with `NewUnexpectedHttpStatusCodeError`; otherwise wait
`retryAfter` and loop.  The source loop is `for { ... }` with no attempt
cap; `fuel` only truncates the embedding, a `none` result meaning the loop
is still running. -/
def Execute (resp : Nat → HttpResponse) (rnd : Nat → Nat)
    (acceptable : List Nat) : Nat → Nat → ExecRun
  | 0, i => ⟨none, i, []⟩
  | fuel + 1, i =>
    let r := resp i
    if r.statusCode ∈ acceptable then
      ⟨some (.success r), i + 1, [.acquireToken, .httpCall r.statusCode]⟩
    else if r.statusCode ∈ retryableStatusCodes then
      let w := retryAfter r (rnd i)
      let rest := Execute resp rnd acceptable fuel (i + 1)
      ⟨rest.result, rest.attempts,
        .acquireToken :: .httpCall r.statusCode :: .sleep w :: rest.actions⟩
    else
      ⟨some (.unexpectedStatusError acceptable r.statusCode r.body), i + 1,
        [.acquireToken, .httpCall r.statusCode]⟩

/-- Outcome of one `client.Api.Execute` call as observed by the
`CreateApplicationUser` retry loop (api_application_user.go): `err == nil`,
an error whose `Error()` contains `"userNotLicensed"`, or any other error
(such as the context's cancellation error). -/
inductive ExecOutcome
  | ok
  | errLicensed
  | errOther (msg : String)
deriving DecidableEq, Repr

/-- Whether the context has been canceled before attempt `i` starts.
`cancelAt = some k` means the context is canceled immediately after the
response to attempt `k` is received. -/
def canceledBefore (cancelAt : Option Nat) (i : Nat) : Bool :=
  match cancelAt with
  | none => false
  | some k => decide (k < i)

/-- The outcome attempt `i` actually observes: once the context is canceled,
`Execute` (which receives the context) returns the context's error, which
does not contain `"userNotLicensed"`. -/
def effectiveOutcome (outcome : Nat → ExecOutcome) (cancelAt : Option Nat)
    (i : Nat) : ExecOutcome :=
  if canceledBefore cancelAt i then .errOther "context canceled" else outcome i

/-- A run of the `CreateApplicationUser` retry loop: number of `Execute`
calls, the sleeps performed between attempts - each recorded with whether
the context was already canceled when the sleep started and its duration in
seconds - and the value of `err` when the loop exits. -/
structure AppUserRun where
  calls : Nat
  sleeps : List (Bool × Nat)
  err : ExecOutcome
deriving DecidableEq, Repr

/-- The retry loop of `CreateApplicationUser` (api_application_user.go lines
107-119): `retryCount := 6 * 9`; while `retryCount > 0`: call `Execute`;
break if `err == nil` or the error does not contain `"userNotLicensed"`;
otherwise `time.Sleep(10 * time.Second)` - an unconditional sleep that takes
no context - and decrement.  `lastErr` carries the current value of the Go
variable `err` (initially `fmt.Errorf("")`, a non-nil error with empty
message), returned when `retryCount` reaches 0. -/
def appUserRetryLoop (outcome : Nat → ExecOutcome) (cancelAt : Option Nat)
    (lastErr : ExecOutcome) : Nat → Nat → AppUserRun
  | 0, i => ⟨i, [], lastErr⟩
  | n + 1, i =>
    match effectiveOutcome outcome cancelAt i with
    | .errLicensed =>
      let rest := appUserRetryLoop outcome cancelAt .errLicensed n (i + 1)
      ⟨rest.calls, (canceledBefore cancelAt (i + 1), 10) :: rest.sleeps, rest.err⟩
    | o => ⟨i + 1, [], o⟩

/-- The `CreateApplicationUser` provisioning retry loop run from its initial
state: `retryCount = 6 * 9 = 54` ("9 minutes of retries"), `err`
initialized to `fmt.Errorf("")`. -/
def CreateApplicationUserRun (outcome : Nat → ExecOutcome)
    (cancelAt : Option Nat) : AppUserRun :=
  appUserRetryLoop outcome cancelAt (.errOther "") (6 * 9) 0

/-- Modelled from the spec: states of the LRO Poller (spec section 4.5); the
poller's source is not under the available sources. -/
inductive LroPhase
  | created
  | running
  | succeeded
  | failed
  | canceledPhase
  | timedOut
deriving DecidableEq, Repr

/-- Modelled from the spec: a polled response - HTTP status code, the parsed
operation-status field and the raw body. -/
structure PollResponse where
  statusCode : Nat
  opStatus : String
  body : String
deriving DecidableEq, Repr

/-- Modelled from the spec: what the LRO Poller returns to its caller - a
terminal outcome or `TimedOut` when the maximum total wait is exhausted. -/
inductive LroResult
  | succeeded (finalBody : String)
  | failed (errPayload : String)
  | canceledOutcome
  | timedOut
deriving DecidableEq, Repr

/-- Modelled from the spec (section 4.5), source not available: each poll
sends a GET to the operation URL and parses the status field; completion
moves to `Succeeded`, failure to `Failed` (surfacing the payload),
cancellation to `Canceled`; HTTP 409 during polling is transient and does
not terminate the loop; otherwise the poller stays in `Running`, sleeps and
polls again; exhausting the budget yields `TimedOut`.  Returns the phase
after each poll together with the final outcome. -/
def lroPollLoop (resp : Nat → PollResponse) : Nat → Nat → List LroPhase × LroResult
  | 0, _ => ([], .timedOut)
  | budget + 1, i =>
    let r := resp i
    if r.statusCode = 409 then
      let rest := lroPollLoop resp budget (i + 1)
      (.running :: rest.1, rest.2)
    else if r.opStatus = "Succeeded" then ([.succeeded], .succeeded r.body)
    else if r.opStatus = "Failed" then ([.failed], .failed r.body)
    else if r.opStatus = "Canceled" then ([.canceledPhase], .canceledOutcome)
    else
      let rest := lroPollLoop resp budget (i + 1)
      (.running :: rest.1, rest.2)

/-- Modelled from the spec: a full LRO Poller run starts in `Created` (on the
initial 202 response carrying the operation URL) and then polls with a total
budget; the returned list is the state trajectory. -/
def lroRun (resp : Nat → PollResponse) (budget : Nat) : List LroPhase × LroResult :=
  (LroPhase.created :: (lroPollLoop resp budget 0).1, (lroPollLoop resp budget 0).2)

/-- Outcome of a Go function call that may panic: a normal return value or a
runtime panic with its message. -/
inductive GoOutcome (α : Type)
  | normal (value : α)
  | panicked (msg : String)
deriving DecidableEq, Repr

/-- `ExecuteApiRequest` of internal/services/rest/api_rest.go (quoted in the
insufficient_uri_validation issue report): copies the caller headers, then -
if a scope is provided - delegates to `client.Api.Execute` with the expected
status codes; with no scope it executes
`panic("scope or evironment_id must be provided")` (typo as in the
source). -/
def ExecuteApiRequest (scope : Option String) (method url : String)
    (body : Option String) (headers : List (String × String))
    (expectedStatusCodes : List Nat) (resp : Nat → HttpResponse)
    (rnd : Nat → Nat) (fuel : Nat) : GoOutcome ExecRun :=
  match scope with
  | some _ => .normal (Execute resp rnd expectedStatusCodes fuel 0)
  | none => .panicked "scope or evironment_id must be provided"

/-- The acceptable-status list `CreateWebsite` passes to `Execute`
(datasource_environment_powerapps.go lines 358-377):
`[]int{http.StatusUnauthorized, http.StatusBadRequest, http.StatusAccepted,
http.StatusNotFound}`. -/
def createWebsiteAcceptable : List Nat := [401, 400, 202, 404]

/-- Result of `CreateWebsite`: `pending` only marks fuel exhaustion of the
embedded `Execute` loop; `ok` is the `nil` return; `executeError` is an
error propagated from `Execute`; `unexpectedStatusCode` is the
`fmt.Errorf("unexpected status code: %s", string(resp.BodyAsBytes))`
error. -/
inductive CreateWebsiteResult
  | pending
  | ok
  | executeError (acceptable : List Nat) (status : Nat) (body : String)
  | unexpectedStatusCode (msg : String)
deriving DecidableEq, Repr

/-- `CreateWebsite` of internal/services/powerpages (in
datasource_environment_powerapps.go): calls `Execute` with acceptable
statuses 401, 400, 202, 404; returns the error if `Execute` failed;
otherwise returns `nil` exactly when the response status is 202 and an
error carrying the raw response body otherwise. -/
def CreateWebsite (resp : Nat → HttpResponse) (rnd : Nat → Nat)
    (fuel : Nat) : CreateWebsiteResult :=
  match (Execute resp rnd createWebsiteAcceptable fuel 0).result with
  | none => .pending
  | some (.unexpectedStatusError acc s b) => .executeError acc s b
  | some (.success r) =>
    if r.statusCode = 202 then .ok
    else .unexpectedStatusCode ("unexpected status code: " ++ r.body)

/-- `strings.ReplaceAll(environmentId, "-", "")`: for the one-character
pattern `"-"` and empty replacement this is exactly the removal of every
hyphen. -/
def stripHyphens (s : String) : String :=
  String.mk (s.data.filter (fun c => c ≠ '-'))

/-- `BuildEnvironmentHostUri` of internal/helpers/uri.go (quoted in the
insufficient_uri_validation issue report): strips all hyphens, then slices
`envId[len(envId)-2:]` and `envId[:len(envId)-2]` with no validation, and
formats `"%s.%s.environment.%s"`.  Go's runtime bounds check on the slice
expression is made explicit: when the stripped id has fewer than 2
characters the slice panics. -/
def BuildEnvironmentHostUri (environmentId powerPlatformUrl : String) :
    GoOutcome String :=
  let envId := stripHyphens environmentId
  if envId.length < 2 then
    .panicked "runtime error: slice bounds out of range"
  else
    .normal (envId.take (envId.length - 2) ++ "." ++
      envId.drop (envId.length - 2) ++ ".environment." ++ powerPlatformUrl)

/-- Modelled from the spec: the terminal phases of the LRO Poller
(`Succeeded`/`Failed`/`Canceled`). -/
def isTerminalPhase : LroPhase → Bool
  | .succeeded => true
  | .failed => true
  | .canceledPhase => true
  | _ => false

/-- Helper: on a stream of permanent 429 responses (retryable, not
acceptable), the `Execute` loop is still running after any number of
iterations. -/
theorem execute_result_none_on_persistent_429 (rnd : Nat → Nat) :
    ∀ (fuel i : Nat),
      (Execute (fun _ => ⟨429, "too many requests", none⟩) rnd [200] fuel i).result
        = none := by
  intro fuel
  induction fuel with
  | zero => intro i; rfl
  | succ n ih =>
    intro i
    simp only [Execute]
    norm_num [retryableStatusCodes]
    exact ih (i + 1)

/-- Helper: the `CreateApplicationUser` retry loop performs at most `i + n`
calls when started at attempt `i` with `retryCount = n`. -/
theorem appUserRetryLoop_calls_le (outcome : Nat → ExecOutcome)
    (cancelAt : Option Nat) :
    ∀ (n : Nat) (lastErr : ExecOutcome) (i : Nat),
      (appUserRetryLoop outcome cancelAt lastErr n i).calls ≤ i + n := by
  intro n
  induction n with
  | zero => intro lastErr i; simp [appUserRetryLoop]
  | succ m ih =>
    intro lastErr i
    simp only [appUserRetryLoop]
    cases effectiveOutcome outcome cancelAt i with
    | ok => simp
    | errLicensed =>
      simpa using le_trans (ih .errLicensed (i + 1)) (by omega)
    | errOther msg => simp

/-- Helper: every sleep performed by the `CreateApplicationUser` retry loop
lasts the full fixed 10 seconds; `time.Sleep` has no shorter path. -/
theorem appUserRetryLoop_sleeps_full (outcome : Nat → ExecOutcome)
    (cancelAt : Option Nat) :
    ∀ (n : Nat) (lastErr : ExecOutcome) (i : Nat),
      ∀ p ∈ (appUserRetryLoop outcome cancelAt lastErr n i).sleeps, p.2 = 10 := by
  intro n
  induction n with
  | zero => intro lastErr i; simp [appUserRetryLoop]
  | succ m ih =>
    intro lastErr i
    simp only [appUserRetryLoop]
    cases effectiveOutcome outcome cancelAt i with
    | ok => simp
    | errLicensed =>
      intro p hp
      rcases List.mem_cons.mp hp with h | h
      · simp [h]
      · exact ih .errLicensed (i + 1) p h
    | errOther msg => simp

/-- Helper: once the context is canceled after attempt `k`, the
`CreateApplicationUser` retry loop makes at most `k + 2` calls - the
cancellation is observed at the next `Execute` call. -/
theorem appUserRetryLoop_calls_le_of_cancel (outcome : Nat → ExecOutcome)
    (k : Nat) :
    ∀ (n : Nat) (lastErr : ExecOutcome) (i : Nat), i ≤ k + 1 →
      (appUserRetryLoop outcome (some k) lastErr n i).calls ≤ k + 2 := by
  intro n
  induction n with
  | zero => intro lastErr i hi; simp [appUserRetryLoop]; omega
  | succ m ih =>
    intro lastErr i hi
    simp only [appUserRetryLoop]
    rcases h : effectiveOutcome outcome (some k) i with _ | _ | msg
    · simp; omega
    · have hnc : canceledBefore (some k) i = false := by
        by_contra hc
        have hc' : canceledBefore (some k) i = true := by
          cases hcb : canceledBefore (some k) i
          · exact absurd hcb hc
          · rfl
        unfold effectiveOutcome at h
        rw [hc'] at h
        simp at h
      have hik : ¬ (k < i) := by
        unfold canceledBefore at hnc
        simpa using hnc
      have : i + 1 ≤ k + 1 := by omega
      simpa using ih .errLicensed (i + 1) this
    · simp; omega

/-- Helper: a poll-loop run either times out with only `Running` phases in
its trace, or its trace is a (possibly empty) block of `Running` phases
followed by exactly one terminal phase. -/
theorem lroPollLoop_shape (resp : Nat → PollResponse) :
    ∀ (budget i : Nat),
      ((lroPollLoop resp budget i).2 = .timedOut ∧
        ∀ q ∈ (lroPollLoop resp budget i).1, q = .running) ∨
      (∃ pre p, isTerminalPhase p = true ∧
        (lroPollLoop resp budget i).1 = pre ++ [p] ∧
        ∀ q ∈ pre, q = .running) := by
  intro budget
  induction budget with
  | zero => intro i; left; exact ⟨rfl, by simp [lroPollLoop]⟩
  | succ m ih =>
    intro i
    simp only [lroPollLoop]
    split
    · rcases ih (i + 1) with ⟨ht, hall⟩ | ⟨pre, p, hterm, heq, hpre⟩
      · left
        refine ⟨ht, ?_⟩
        intro q hq
        rcases List.mem_cons.mp hq with h | h
        · exact h
        · exact hall q h
      · right
        refine ⟨.running :: pre, p, hterm, by simp [heq], ?_⟩
        intro q hq
        rcases List.mem_cons.mp hq with h | h
        · exact h
        · exact hpre q h
    · split
      · right; exact ⟨[], .succeeded, rfl, by simp, by simp⟩
      · split
        · right; exact ⟨[], .failed, rfl, by simp, by simp⟩
        · split
          · right; exact ⟨[], .canceledPhase, rfl, by simp, by simp⟩
          · rcases ih (i + 1) with ⟨ht, hall⟩ | ⟨pre, p, hterm, heq, hpre⟩
            · left
              refine ⟨ht, ?_⟩
              intro q hq
              rcases List.mem_cons.mp hq with h | h
              · exact h
              · exact hall q h
            · right
              refine ⟨.running :: pre, p, hterm, by simp [heq], ?_⟩
              intro q hq
              rcases List.mem_cons.mp hq with h | h
              · exact h
              · exact hpre q h

/-- C1: the spec requires every retry loop to stop after a hard-capped
number of attempts or a bounded elapsed time.  The `CreateApplicationUser`
provisioning loop is indeed bounded (at most 6 * 9 = 54 `Execute` calls,
about 9 minutes of 10-second sleeps), but the `Client.Execute` retry loop
has no cap: on a request whose every response is a retryable 429, the loop
is still running after any number of iterations. -/
theorem retry_loops_termination :
    (∀ (rnd : Nat → Nat) (fuel i : Nat),
        (Execute (fun _ => ⟨429, "too many requests", none⟩) rnd [200] fuel i).result
          = none) ∧
    (∀ (outcome : Nat → ExecOutcome) (cancelAt : Option Nat),
        (CreateApplicationUserRun outcome cancelAt).calls ≤ 54) := by
  constructor
  · exact fun rnd fuel i => execute_result_none_on_persistent_429 rnd fuel i
  · intro outcome cancelAt
    simpa [CreateApplicationUserRun] using
      appUserRetryLoop_calls_le outcome cancelAt (6 * 9) (.errOther "") 0

/-- C2: a response whose status is outside both the caller's acceptable set
and the retryable set makes `Execute` return at once with
`NewUnexpectedHttpStatusCodeError` after exactly one HTTP call. -/
theorem execute_returns_immediately_outside_retryable_set :
    ∀ (resp : Nat → HttpResponse) (rnd : Nat → Nat) (acceptable : List Nat)
      (fuel : Nat),
      (resp 0).statusCode ∉ acceptable →
      (resp 0).statusCode ∉ retryableStatusCodes →
      Execute resp rnd acceptable (fuel + 1) 0 =
        ⟨some (.unexpectedStatusError acceptable (resp 0).statusCode (resp 0).body),
          1, [.acquireToken, .httpCall (resp 0).statusCode]⟩ := by
  intro resp rnd acceptable fuel h1 h2
  simp [Execute, h1, h2]

/-- Witness for C2 at status 404 with acceptable set {200}. -/
theorem execute_returns_immediately_outside_retryable_set_witness :
    Execute (fun _ => ⟨404, "not found", none⟩) (fun _ => 0) [200] 1 0 =
      ⟨some (.unexpectedStatusError [200] 404 "not found"), 1,
        [.acquireToken, .httpCall 404]⟩ :=
  execute_returns_immediately_outside_retryable_set _ _ _ 0 (by decide) (by decide)

/-- C3: if the first response's status is in the caller-supplied acceptable
set, `Execute` returns success carrying that response after exactly one HTTP
call, whether or not the status is 2xx. -/
theorem execute_acceptable_status_single_call :
    ∀ (resp : Nat → HttpResponse) (rnd : Nat → Nat) (acceptable : List Nat)
      (fuel : Nat),
      (resp 0).statusCode ∈ acceptable →
      Execute resp rnd acceptable (fuel + 1) 0 =
        ⟨some (.success (resp 0)), 1, [.acquireToken, .httpCall (resp 0).statusCode]⟩ := by
  intro resp rnd acceptable fuel h
  simp [Execute, h]

/-- Witness for C3 at the non-2xx status 404 accepted by the caller. -/
theorem execute_acceptable_status_single_call_witness :
    Execute (fun _ => ⟨404, "entity missing", none⟩) (fun _ => 0) [404, 202] 1 0 =
      ⟨some (.success ⟨404, "entity missing", none⟩), 1,
        [.acquireToken, .httpCall 404]⟩ :=
  execute_acceptable_status_single_call _ _ _ 0 (by decide)

/-- C4 counterexample: on the concrete run [401, 200] with acceptable set
{200}, `Execute` resubmits the request after the 401 (two HTTP calls in the
trace) yet performs no forced token refresh at all - contradicting the claim
that every retry after a 401 is preceded by a forced refresh. -/
theorem execute_401_blind_retry_counterexample :
    Execute (fun i => if i = 0 then ⟨401, "", none⟩ else ⟨200, "okbody", none⟩)
        (fun _ => 0) [200] 5 0 =
      ⟨some (.success ⟨200, "okbody", none⟩), 2,
        [.acquireToken, .httpCall 401, .sleep 10, .acquireToken, .httpCall 200]⟩ ∧
    ExecAction.forceRefresh ∉
      (Execute (fun i => if i = 0 then ⟨401, "", none⟩ else ⟨200, "okbody", none⟩)
        (fun _ => 0) [200] 5 0).actions := by
  constructor
  · rfl
  · decide

/-- C4 (amended): the Retry Controller never performs a forced token
refresh; a 401 outside the acceptable set is resubmitted blindly, exactly
like any other retryable status, with only the backoff sleep in between. -/
theorem execute_treats_401_as_plain_retryable :
    (∀ (resp : Nat → HttpResponse) (rnd : Nat → Nat) (acceptable : List Nat)
        (fuel i : Nat),
        ExecAction.forceRefresh ∉ (Execute resp rnd acceptable fuel i).actions) ∧
    (∀ (resp : Nat → HttpResponse) (rnd : Nat → Nat) (acceptable : List Nat)
        (fuel : Nat),
        (resp 0).statusCode = 401 → 401 ∉ acceptable →
        Execute resp rnd acceptable (fuel + 1) 0 =
          ⟨(Execute resp rnd acceptable fuel 1).result,
           (Execute resp rnd acceptable fuel 1).attempts,
           .acquireToken :: .httpCall 401 :: .sleep (retryAfter (resp 0) (rnd 0)) ::
             (Execute resp rnd acceptable fuel 1).actions⟩) := by
  constructor
  · intro resp rnd acceptable fuel
    induction fuel with
    | zero => intro i; simp [Execute]
    | succ n ih =>
      intro i
      simp only [Execute]
      split
      · simp
      · split
        · intro hmem
          rcases List.mem_cons.mp hmem with h | h
          · exact absurd h (by simp)
          · rcases List.mem_cons.mp h with h2 | h2
            · exact absurd h2 (by simp)
            · rcases List.mem_cons.mp h2 with h3 | h3
              · exact absurd h3 (by simp)
              · exact absurd h3 (ih (i + 1))
        · simp
  · intro resp rnd acceptable fuel h401 hna
    have h2 : (401 : Nat) ∈ retryableStatusCodes := by simp [retryableStatusCodes]
    simp [Execute, h401, hna, h2]

/-- Witness for C4 (amended) at the concrete run [401, 200]. -/
theorem execute_treats_401_as_plain_retryable_witness :
    ExecAction.forceRefresh ∉
      (Execute (fun i => if i = 0 then ⟨401, "blip", none⟩ else ⟨200, "ok", none⟩)
        (fun _ => 3) [200] 7 0).actions ∧
    Execute (fun i => if i = 0 then ⟨401, "blip", none⟩ else ⟨200, "ok", none⟩)
        (fun _ => 3) [200] 7 0 =
      ⟨(Execute (fun i => if i = 0 then ⟨401, "blip", none⟩ else ⟨200, "ok", none⟩)
          (fun _ => 3) [200] 6 1).result,
       (Execute (fun i => if i = 0 then ⟨401, "blip", none⟩ else ⟨200, "ok", none⟩)
          (fun _ => 3) [200] 6 1).attempts,
       .acquireToken :: .httpCall 401 :: .sleep 13 ::
         (Execute (fun i => if i = 0 then ⟨401, "blip", none⟩ else ⟨200, "ok", none⟩)
          (fun _ => 3) [200] 6 1).actions⟩ :=
  ⟨execute_treats_401_as_plain_retryable.1 _ _ _ 7 0,
   execute_treats_401_as_plain_retryable.2 _ _ _ 6 (by decide) (by decide)⟩

/-- C5: before a retry with no `Retry-After` header the code waits
`DefaultRetryAfter`, a constant-range 10-19 second value independent of the
attempt number, and never the spec's exponentially growing
`min(maxDelay, base * 2^attempt) * (1 + jitter)`: already at attempt 4
(base 10s, maxDelay 120s, zero jitter) the spec delay is 120s, beyond every
value `DefaultRetryAfter` can produce. -/
theorem default_retry_after_not_exponential :
    (∀ rnd : Nat, 10 ≤ DefaultRetryAfter rnd ∧ DefaultRetryAfter rnd ≤ 19) ∧
    specRetryDelay 10 120 4 = 120 ∧
    (∀ rnd : Nat, DefaultRetryAfter rnd < specRetryDelay 10 120 4) := by
  refine ⟨?_, by norm_num [specRetryDelay], ?_⟩
  · intro rnd
    have h : rnd % 10 < 10 := Nat.mod_lt _ (by norm_num)
    unfold DefaultRetryAfter
    omega
  · intro rnd
    have h : rnd % 10 < 10 := Nat.mod_lt _ (by norm_num)
    have hs : specRetryDelay 10 120 4 = 120 := by norm_num [specRetryDelay]
    unfold DefaultRetryAfter
    omega

/-- C6 counterexample: outcome `userNotLicensed` at attempt 0 and a context
canceled immediately after that response.  The loop nevertheless performs
its full unconditional 10-second `time.Sleep` - recorded as a sleep entry
whose flag says the context was already canceled when it started - before
the next `Execute` call observes the cancellation; the claim that no retry
backoff sleeps its full interval while ignoring the canceled context is
therefore false at this input. -/
theorem app_user_sleep_while_canceled_counterexample :
    CreateApplicationUserRun (fun _ => .errLicensed) (some 0) =
      ⟨2, [(true, 10)], .errOther "context canceled"⟩ ∧
    ¬ (∀ p ∈ (CreateApplicationUserRun (fun _ => .errLicensed) (some 0)).sleeps,
        p.1 = false ∨ p.2 = 0) := by
  constructor
  · rfl
  · decide

/-- C6 (amended): every backoff in the `CreateApplicationUser` retry loop is
the full, fixed 10-second `time.Sleep` regardless of the context's state;
a canceled context is only observed at the next `Execute` call, which ends
the loop (at most `k + 2` calls when cancellation happens after attempt
`k`). -/
theorem app_user_backoff_ignores_context :
    ∀ (outcome : Nat → ExecOutcome) (cancelAt : Option Nat),
      (CreateApplicationUserRun outcome cancelAt).sleeps.all
        (fun p => p.2 == 10) = true ∧
      (∀ k, cancelAt = some k →
        (CreateApplicationUserRun outcome cancelAt).calls ≤ k + 2) := by
  intro outcome cancelAt
  constructor
  · rw [List.all_eq_true]
    intro p hp
    have := appUserRetryLoop_sleeps_full outcome cancelAt (6 * 9) (.errOther "") 0 p
      (by simpa [CreateApplicationUserRun] using hp)
    simp [this]
  · intro k hk
    subst hk
    simpa [CreateApplicationUserRun] using
      appUserRetryLoop_calls_le_of_cancel outcome k (6 * 9) (.errOther "") 0
        (by omega)

/-- Witness for C6 (amended) at cancellation right after the first
response. -/
theorem app_user_backoff_ignores_context_witness :
    (CreateApplicationUserRun (fun _ => .errLicensed) (some 0)).calls ≤ 2 :=
  (app_user_backoff_ignores_context (fun _ => .errLicensed) (some 0)).2 0 rfl

/-- C7: on the scripted responses [202 Running, 202 Running, 200 Succeeded]
the LRO Poller passes through Created, Running, Running, Succeeded and
returns the final body; and on every input it hands control back only with
a terminal phase at the end of its trajectory or with `TimedOut` when the
budget is exhausted. -/
theorem lro_poller_scripted_run_terminal_only :
    lroRun (fun i => if i = 0 then ⟨202, "Running", ""⟩
        else if i = 1 then ⟨202, "Running", ""⟩
        else ⟨200, "Succeeded", "final-body"⟩) 10 =
      ([.created, .running, .running, .succeeded], .succeeded "final-body") ∧
    (∀ (resp : Nat → PollResponse) (budget : Nat),
      (lroRun resp budget).2 = .timedOut ∨
      ∃ n p, isTerminalPhase p = true ∧
        (lroRun resp budget).1 =
          .created :: (List.replicate n .running ++ [p])) := by
  constructor
  · rfl
  · intro resp budget
    rcases lroPollLoop_shape resp budget 0 with ⟨ht, _⟩ | ⟨pre, p, hterm, heq, hpre⟩
    · left; simpa [lroRun] using ht
    · right
      refine ⟨pre.length, p, hterm, ?_⟩
      have : pre = List.replicate pre.length LroPhase.running :=
        List.eq_replicate_of_mem hpre
      simp [lroRun, heq, ← this]

/-- C8: calling `ExecuteApiRequest` with a nil scope does not return an
error value - it aborts via
`panic("scope or evironment_id must be provided")`. -/
theorem execute_api_request_nil_scope_panics :
    ExecuteApiRequest none "POST" "https://example.api/endpoint" none []
        [200] (fun _ => ⟨200, "", none⟩) (fun _ => 0) 1 =
      .panicked "scope or evironment_id must be provided" := rfl

/-- C9: `CreateWebsite` passes the acceptable set {401, 400, 202, 404} to
`Execute`; when the first response's status is 400, 401 or 404 the `Execute`
call reports success, yet `CreateWebsite` returns the non-nil
"unexpected status code" error carrying the raw response body; it returns
nil exactly when `Execute` succeeded with a 202 response. -/
theorem create_website_nil_iff_accepted :
    ∀ (resp : Nat → HttpResponse) (rnd : Nat → Nat) (fuel : Nat),
      ((resp 0).statusCode ∈ ([400, 401, 404] : List Nat) →
        (Execute resp rnd createWebsiteAcceptable (fuel + 1) 0).result =
          some (.success (resp 0)) ∧
        CreateWebsite resp rnd (fuel + 1) =
          .unexpectedStatusCode ("unexpected status code: " ++ (resp 0).body)) ∧
      ((resp 0).statusCode = 202 → CreateWebsite resp rnd (fuel + 1) = .ok) ∧
      (CreateWebsite resp rnd fuel = .ok ↔
        ∃ r, (Execute resp rnd createWebsiteAcceptable fuel 0).result =
            some (.success r) ∧ r.statusCode = 202) := by
  intro resp rnd fuel
  refine ⟨?_, ?_, ?_⟩
  · intro h
    simp only [List.mem_cons, List.mem_singleton, List.not_mem_nil,
      or_false] at h
    rcases h with h | h | h <;>
      exact ⟨by simp [Execute, createWebsiteAcceptable, h],
        by simp [CreateWebsite, Execute, createWebsiteAcceptable, h]⟩
  · intro h
    simp [CreateWebsite, Execute, createWebsiteAcceptable, h]
  · unfold CreateWebsite
    rcases hres : (Execute resp rnd createWebsiteAcceptable fuel 0).result
      with _ | res
    · simp
    · rcases res with r | ⟨acc, s, b⟩
      · by_cases h202 : r.statusCode = 202
        · simp [h202]
        · simp [h202]
      · simp

/-- Witness for C9: a first response of 404 yields the "unexpected status
code" error around the raw body although `Execute` accepted it, and a first
response of 202 yields nil. -/
theorem create_website_nil_iff_accepted_witness :
    CreateWebsite (fun _ => ⟨404, "org not found", none⟩) (fun _ => 0) 1 =
      .unexpectedStatusCode "unexpected status code: org not found" ∧
    CreateWebsite (fun _ => ⟨202, "accepted", none⟩) (fun _ => 0) 1 = .ok :=
  ⟨((create_website_nil_iff_accepted (fun _ => ⟨404, "org not found", none⟩)
      (fun _ => 0) 0).1 (by decide)).2,
   (create_website_nil_iff_accepted (fun _ => ⟨202, "accepted", none⟩)
      (fun _ => 0) 0).2.1 (by decide)⟩

/-- C10: whenever the environment id with all hyphens removed has fewer than
2 characters, `BuildEnvironmentHostUri` hits Go's bounds check on
`envId[len(envId)-2:]` and panics; no validation precedes the slice. -/
theorem build_environment_host_uri_short_id_panics :
    ∀ (environmentId powerPlatformUrl : String),
      (stripHyphens environmentId).length < 2 →
      BuildEnvironmentHostUri environmentId powerPlatformUrl =
        .panicked "runtime error: slice bounds out of range" := by
  intro environmentId powerPlatformUrl h
  unfold BuildEnvironmentHostUri
  rw [if_pos h]

/-- Witness for C10 at the empty environment id. -/
theorem build_environment_host_uri_short_id_panics_witness :
    BuildEnvironmentHostUri "" "api.powerplatform.com" =
      .panicked "runtime error: slice bounds out of range" :=
  build_environment_host_uri_short_id_panics "" "api.powerplatform.com"
    (by decide)
